import Mathlib

/-!
A verification development for `rank_ads_by_active_duration.py`, a script that
ranks advertisement records by active duration.  The Python source is embedded
shallowly: JSON-derived field values become `PyVal`, Python `datetime` objects
become `PyDatetime` (wall-clock seconds since the Unix epoch together with an
optional UTC offset in seconds; `none` models an offset-naive datetime), and
fallible operations return `Option` or `Except`.  JSON numbers are modelled as
integers and ISO strings at whole-second precision, which covers every input
the development reasons about.
-/

namespace RankAds

/-- A loosely-typed field value of an ad record (`ad.get(key)` in the source;
`vNone` covers both a missing key and JSON `null`). -/
inductive PyVal
  | vNone
  | vBool (b : Bool)
  | vInt (n : Int)
  | vStr (s : String)
deriving DecidableEq, Repr

/-- Python truthiness for the modelled values: `None`, `False`, `0` and `""`
are falsy, everything else is truthy. -/
def truthy : PyVal → Bool
  | .vNone => false
  | .vBool b => b
  | .vInt n => n != 0
  | .vStr s => s != ""

/-- Python `str(v)` for the modelled values. -/
def pyStr : PyVal → String
  | .vNone => "None"
  | .vBool true => "True"
  | .vBool false => "False"
  | .vInt n => toString n
  | .vStr s => s

/-- Models the source expression `str(v or '')` used when rendering the
identifier and page-name columns: a falsy value renders as the empty string. -/
def pyStrOrEmpty (v : PyVal) : String :=
  if truthy v then pyStr v else ""

/-- A Python `datetime` at whole-second precision: `wallSec` is the displayed
wall-clock time counted in seconds since 1970-01-01 00:00:00 of the same
clock, and `tzOffset` is the UTC offset in seconds (`none` = offset-naive). -/
structure PyDatetime where
  wallSec : Int
  tzOffset : Option Int
deriving DecidableEq, Repr

/-- Days from civil date (proleptic Gregorian), days counted from 1970-01-01
(Hinnant's `days_from_civil`). -/
def daysFromCivil (y m d : Int) : Int :=
  let yy := if m ≤ 2 then y - 1 else y
  let era := (if 0 ≤ yy then yy else yy - 399) / 400
  let yoe := yy - era * 400
  let mp := if 2 < m then m - 3 else m + 9
  let doy := (153 * mp + 2) / 5 + d - 1
  let doe := yoe * 365 + yoe / 4 - yoe / 100 + doy
  era * 146097 + doe - 719468

/-- Civil date from a day count relative to 1970-01-01 (Hinnant's
`civil_from_days`). -/
def civilFromDays (z0 : Int) : Int × Int × Int :=
  let z := z0 + 719468
  let era := (if 0 ≤ z then z else z - 146096) / 146097
  let doe := z - era * 146097
  let yoe := (doe - doe / 1460 + doe / 36524 - doe / 146096) / 365
  let y := yoe + era * 400
  let doy := doe - (365 * yoe + yoe / 4 - yoe / 100)
  let mp := (5 * doy + 2) / 153
  let d := doy - (153 * mp + 2) / 5 + 1
  let m := if mp < 10 then mp + 3 else mp - 9
  (if m ≤ 2 then y + 1 else y, m, d)

/-- Gregorian leap-year test. -/
def isLeap (y : Nat) : Bool :=
  (y % 4 == 0 && y % 100 != 0) || y % 400 == 0

/-- Number of days in a month. -/
def daysInMonth (y m : Nat) : Nat :=
  if m = 2 then (if isLeap y then 29 else 28)
  else if m = 4 ∨ m = 6 ∨ m = 9 ∨ m = 11 then 30
  else 31

/-- Decimal value of a digit character, if any. -/
def digitVal : Char → Option Nat
  | c => if c.isDigit then some (c.toNat - 48) else none

/-- Read exactly two leading digit characters. -/
def takeDigits2 : List Char → Option (Nat × List Char)
  | c1 :: c2 :: rest =>
    match digitVal c1, digitVal c2 with
    | some a, some b => some (a * 10 + b, rest)
    | _, _ => none
  | _ => none

/-- Read exactly four leading digit characters. -/
def takeDigits4 : List Char → Option (Nat × List Char)
  | c1 :: c2 :: c3 :: c4 :: rest =>
    match digitVal c1, digitVal c2, digitVal c3, digitVal c4 with
    | some a, some b, some c, some d => some (a * 1000 + b * 100 + c * 10 + d, rest)
    | _, _, _, _ => none
  | _ => none

/-- Consume an expected leading character. -/
def expectChar (c : Char) : List Char → Option (List Char)
  | x :: rest => if x = c then some rest else none
  | [] => none

/-- Read a trailing UTC-offset suffix `±HH:MM` (the whole remaining input must
be the offset), returning the offset in seconds. -/
def readOffset (cs : List Char) : Option Int :=
  match cs with
  | [] => none
  | s :: rest =>
    match (if s = '+' then some 1 else if s = '-' then some (-1) else none :
        Option Int) with
    | none => none
    | some sg =>
      match takeDigits2 rest with
      | none => none
      | some (oh, r1) =>
        match expectChar ':' r1 with
        | none => none
        | some r2 =>
          match takeDigits2 r2 with
          | none => none
          | some (om, r3) =>
            if r3 = [] ∧ oh ≤ 23 ∧ om ≤ 59 then
              some (sg * (Int.ofNat oh * 3600 + Int.ofNat om * 60))
            else none

/-- The time-of-day part of `fromisoformat`: `dayPart` is the parsed date in
seconds, `r5` what follows the ten date characters. -/
def fromisoTime (dayPart : Int) (r5 : List Char) : Option PyDatetime :=
  match r5 with
  | [] => some ⟨dayPart, none⟩
  | _sep :: r6 =>
    match takeDigits2 r6 with
    | none => none
    | some (hh, r7) =>
      match expectChar ':' r7 with
      | none => none
      | some r8 =>
        match takeDigits2 r8 with
        | none => none
        | some (mi, r9) =>
          match expectChar ':' r9 with
          | none => none
          | some r10 =>
            match takeDigits2 r10 with
            | none => none
            | some (ss, r11) =>
              if hh ≤ 23 ∧ mi ≤ 59 ∧ ss ≤ 59 then
                let wall : Int := dayPart + Int.ofNat hh * 3600 +
                  Int.ofNat mi * 60 + Int.ofNat ss
                match r11 with
                | [] => some ⟨wall, none⟩
                | _ =>
                  match readOffset r11 with
                  | none => none
                  | some off => some ⟨wall, some off⟩
              else none

/-- Model of `datetime.fromisoformat` restricted to the formats
`YYYY-MM-DD`, `YYYY-MM-DD?HH:MM:SS` and `YYYY-MM-DD?HH:MM:SS±HH:MM`
(`?` any single separator character) at whole-second precision, with the
library's range checks (year ≥ 1, valid month/day, hour ≤ 23, minute and
second ≤ 59, offset hours ≤ 23); every other string is a parse failure. -/
def fromisoformat (str : String) : Option PyDatetime :=
  match takeDigits4 str.data with
  | none => none
  | some (y, r1) =>
    match expectChar '-' r1 with
    | none => none
    | some r2 =>
      match takeDigits2 r2 with
      | none => none
      | some (m, r3) =>
        match expectChar '-' r3 with
        | none => none
        | some r4 =>
          match takeDigits2 r4 with
          | none => none
          | some (d, r5) =>
            if 1 ≤ y ∧ 1 ≤ m ∧ m ≤ 12 ∧ 1 ≤ d ∧ d ≤ daysInMonth y m then
              fromisoTime (daysFromCivil (Int.ofNat y) (Int.ofNat m)
                (Int.ofNat d) * 86400) r5
            else none

/-- Python exceptions the pipeline can leave uncaught: `typeError` from
subtracting an offset-naive and an offset-aware datetime, `overflowError`
from `fromtimestamp` on an epoch outside the 64-bit `time_t` range. -/
inductive PyErr
  | typeError
  | overflowError
deriving DecidableEq, Repr

/-- `datetime.fromtimestamp(e, tz=timezone.utc)` succeeds exactly when the
resulting calendar year lies in 1..9999; an epoch outside that range but
still representable as a 64-bit `time_t` raises `ValueError` (or, at the
extreme `time_t` values, `OSError`), both of which the source catches. -/
def fromtimestampOk (e : Int) : Bool :=
  -62135596800 ≤ e && e ≤ 253402300799

/-- Smallest value of a 64-bit `time_t`. -/
def timeTMin : Int := -9223372036854775808

/-- Largest value of a 64-bit `time_t`. -/
def timeTMax : Int := 9223372036854775807

/-- The source's `Z` rewrite: a trailing literal `Z`
(`iso_string.endswith("Z")`, i.e. the last character is `Z`) is replaced by
`+00:00` (`iso_string[:-1] + "+00:00"`) before the string is handed to
`fromisoformat`. -/
def zReplace (s : String) : String :=
  match s.data.getLast? with
  | some c => if c = 'Z' then String.mk (s.data.dropLast ++ "+00:00".data) else s
  | none => s

/-- `parse_datetime(epoch_value, iso_string)` from the source: prefer the
epoch value when it is present and in the calendar range (yielding an aware
UTC datetime); a caught `ValueError`/`OSError` on the epoch, like a missing
epoch, falls through to the ISO string (empty and missing strings are falsy
and skipped), and a caught string `ValueError` yields `.ok none`
(unresolved).  An epoch that does not fit a 64-bit `time_t` makes
`fromtimestamp` raise `OverflowError`, which the source's
`except (ValueError, OSError)` does not catch, so it escapes the function. -/
def parse_datetime (epochValue : Option Int) (isoString : Option String) :
    Except PyErr (Option PyDatetime) :=
  let fromIso : Option PyDatetime :=
    match isoString with
    | some s => if s = "" then none else fromisoformat (zReplace s)
    | none => none
  match epochValue with
  | some e =>
    if e < timeTMin ∨ timeTMax < e then .error .overflowError
    else if fromtimestampOk e then .ok (some ⟨e, some 0⟩)
    else .ok fromIso
  | none => .ok fromIso

/-- An ad record: the optional fields the source reads from each ad object.
The epoch fields are modelled as optional integers and the string fields as
optional strings (a missing key is `none`); the identifier, page-name and
active-flag fields keep full Python looseness via `PyVal`. -/
structure Ad where
  ad_archive_id : PyVal
  page_name : PyVal
  start_date : Option Int
  start_date_string : Option String
  end_date : Option Int
  end_date_string : Option String
  is_active : PyVal
deriving DecidableEq, Repr

/-- Python `datetime` subtraction, in whole seconds: aware − aware subtracts
the denoted instants (wall time minus offset), naive − naive subtracts wall
times, and mixing naive with aware raises `TypeError`. -/
def pySub (a b : PyDatetime) : Except PyErr Int :=
  match a.tzOffset, b.tzOffset with
  | some oa, some ob => .ok (a.wallSec - oa - (b.wallSec - ob))
  | none, none => .ok (a.wallSec - b.wallSec)
  | _, _ => .error .typeError

/-- `determine_end_time(ad, default_now)` from the source: resolve the end
fields; if unresolved and the active flag is truthy, fall back to
`default_now`; otherwise propagate the unresolved result. -/
def determine_end_time (ad : Ad) (defaultNow : PyDatetime) :
    Except PyErr (Option PyDatetime) :=
  match parse_datetime ad.end_date ad.end_date_string with
  | .error e => .error e
  | .ok (some t) => .ok (some t)
  | .ok none =>
    if truthy ad.is_active then .ok (some defaultNow) else .ok none

/-- A ranking entry as built in the main loop (the dict appended to
`ranking`). -/
structure RankedEntry where
  ad_archive_id : PyVal
  page_name : PyVal
  start_time : PyDatetime
  end_time : PyDatetime
  duration_seconds : Int
deriving DecidableEq, Repr

/-- One iteration of the main loop for a single ad: `ok none` means the ad is
skipped (`continue`), `ok (some e)` means an entry is appended, and `error`
means an uncaught exception escapes the loop. -/
def processAd (now : PyDatetime) (ad : Ad) : Except PyErr (Option RankedEntry) :=
  match parse_datetime ad.start_date ad.start_date_string with
  | .error e => .error e
  | .ok none => .ok none
  | .ok (some startTime) =>
    match determine_end_time ad now with
    | .error e => .error e
    | .ok none => .ok none
    | .ok (some endTime) =>
      match pySub endTime startTime with
      | .error e => .error e
      | .ok d =>
        if d < 0 then .ok none
        else .ok (some ⟨ad.ad_archive_id, ad.page_name, startTime, endTime, d⟩)

/-- The main loop over the extracted ads, in order; the first uncaught
exception terminates the run. -/
def buildRanking (now : PyDatetime) : List Ad → Except PyErr (List RankedEntry)
  | [] => .ok []
  | ad :: rest =>
    match processAd now ad with
    | .error e => .error e
    | .ok none => buildRanking now rest
    | .ok (some e) =>
      match buildRanking now rest with
      | .error err => .error err
      | .ok rs => .ok (e :: rs)

/-- `ranking.sort(key=duration_seconds, reverse=True)`: a stable descending
sort by duration, modelled by the (stable) merge sort under the total order
`b.duration_seconds ≤ a.duration_seconds`. -/
def sortRanking (l : List RankedEntry) : List RankedEntry :=
  l.mergeSort (fun a b => decide (b.duration_seconds ≤ a.duration_seconds))

/-- The value found under a container key of the payload: absent, a JSON
list of ads, or some non-list value. -/
inductive ContainerField
  | absent
  | adList (ads : List Ad)
  | nonList
deriving Repr

/-- The parsed JSON payload, restricted to the two container keys the source
inspects. -/
structure Payload where
  dataField : ContainerField
  resultsField : ContainerField

/-- `iter_ads(data)` from the source: return the first list-valued container
among the keys `data`, `results`, in that order; otherwise the empty list. -/
def iter_ads (p : Payload) : List Ad :=
  match p.dataField with
  | .adList ads => ads
  | _ =>
    match p.resultsField with
    | .adList ads => ads
    | _ => []

/-- Round `num / den` (with `den > 0`) to the nearest integer, ties to even. -/
def roundHalfEven (num den : Int) : Int :=
  let q := num.fdiv den
  let r := num.fmod den
  if 2 * r < den then q
  else if den < 2 * r then q + 1
  else if q.fmod 2 = 0 then q else q + 1

/-- Zero-pad a natural number to two digits. -/
def pad2 (n : Nat) : String :=
  if n < 10 then "0" ++ toString n else toString n

/-- Zero-pad a natural number to four digits. -/
def pad4 (n : Nat) : String :=
  if n < 10 then "000" ++ toString n
  else if n < 100 then "00" ++ toString n
  else if n < 1000 then "0" ++ toString n
  else toString n

/-- `format_timedelta(delta_seconds)` from the source: the duration in days
(`delta_seconds / 86400`) rendered with two decimal places.  Rounding is
modelled exactly over the rationals with ties to even; the source rounds the
nearest IEEE-754 double instead, which can differ only when the exact value
is within one double-ulp of a decimal tie — no claim here depends on such
inputs. -/
def format_timedelta (deltaSeconds : Int) : String :=
  let h := roundHalfEven (deltaSeconds * 100) 86400
  let sign := if h < 0 then "-" else ""
  let a := h.natAbs
  sign ++ toString (a / 100) ++ "." ++ pad2 (a % 100)

/-- Left-pad with spaces to width `w` (Python `{v:>w}`; no truncation). -/
def padLeft (w : Nat) (s : String) : String :=
  String.mk (List.replicate (w - s.length) ' ') ++ s

/-- Right-pad with spaces to width `w` (Python `{v:<w}`; no truncation). -/
def padRight (w : Nat) (s : String) : String :=
  s ++ String.mk (List.replicate (w - s.length) ' ')

/-- `datetime.strftime("%Y-%m-%d %H:%M")`: render the wall-clock fields of
the datetime (the stored offset, if any, is not applied and not shown). -/
def strftimeYMDHM (t : PyDatetime) : String :=
  let z := t.wallSec.fdiv 86400
  let sod := (t.wallSec.fmod 86400).toNat
  let c := civilFromDays z
  pad4 c.1.toNat ++ "-" ++ pad2 c.2.1.toNat ++ "-" ++ pad2 c.2.2.toNat ++ " " ++
    pad2 (sod / 3600) ++ ":" ++ pad2 (sod % 3600 / 60)

/-- The message printed when no ad qualifies. -/
def noAdsMessage : String := "No ads with valid start and end times found."

/-- The fixed table header line. -/
def headerLine : String :=
  padLeft 4 "Rank" ++ "  " ++ padRight 20 "Ad Archive ID" ++ "  " ++
    padRight 30 "Page Name" ++ "  " ++ padRight 20 "Start (UTC)" ++ "  " ++
    padRight 20 "End (UTC)" ++ "  " ++ padLeft 12 "Active Days"

/-- The dash separator line, matching the header's length. -/
def separatorLine : String :=
  String.mk (List.replicate headerLine.length '-')

/-- One table row for the entry at 1-based rank `i`. -/
def renderRow (i : Nat) (e : RankedEntry) : String :=
  padLeft 4 (toString i) ++ "  " ++ padRight 20 (pyStrOrEmpty e.ad_archive_id) ++ "  " ++
    padRight 30 (pyStrOrEmpty e.page_name) ++ "  " ++
    padRight 20 (strftimeYMDHM e.start_time) ++ "  " ++
    padRight 20 (strftimeYMDHM e.end_time) ++ "  " ++
    padLeft 12 (format_timedelta e.duration_seconds)

/-- The table rows for a ranking, numbering from rank `i`. -/
def renderRows (i : Nat) : List RankedEntry → List String
  | [] => []
  | e :: rest => renderRow i e :: renderRows (i + 1) rest

/-- The lines the program emits: the no-ads message alone when the ranking is
empty, otherwise header, separator and one row per entry. -/
def renderLines (ranking : List RankedEntry) : List String :=
  match ranking with
  | [] => [noAdsMessage]
  | _ => headerLine :: separatorLine :: renderRows 1 ranking

/-- The output file's content: the emitted lines joined by newlines, plus a
trailing newline (`"\n".join(lines) + "\n"`). -/
def joinLines (lines : List String) : String :=
  String.intercalate "\x0a" lines ++ "\x0a"

/-- How a run can terminate abnormally: `systemExit` models
`raise SystemExit(msg)` (exit status 1 with the diagnostic on stderr),
`uncaught` an uncaught Python exception (also a non-zero exit).  In either
case the output file has not been written. -/
inductive RunError
  | systemExit (msg : String)
  | uncaught (e : PyErr)
deriving DecidableEq, Repr

/-- `if args.now:` and the fallback: a missing or empty `--now` uses the wall
clock; a non-empty value must parse or the program raises
`SystemExit(f"Invalid --now value: ...")`.  (The `uncaught` branch mirrors an
exception escaping `parse_datetime`; with the epoch argument `None` it cannot
actually occur.) -/
def resolveNow (nowArg : Option String) (wallClock : PyDatetime) :
    Except RunError PyDatetime :=
  match nowArg with
  | some s =>
    if s = "" then .ok wallClock
    else
      match parse_datetime none (some s) with
      | .error e => .error (.uncaught e)
      | .ok (some t) => .ok t
      | .ok none => .error (.systemExit ("Invalid --now value: " ++ s))
  | none => .ok wallClock

/-- A successful run's observable result: the sorted ranking, the lines
printed to standard output, and the text written to the output file. -/
structure RunOutput where
  ranking : List RankedEntry
  stdoutLines : List String
  fileContent : String
deriving DecidableEq, Repr

/-- `main()` from the parsed payload on: resolve `now`, build the ranking
over the extracted ads, sort it, and emit the report to standard output and
the output file. -/
def runMain (p : Payload) (nowArg : Option String) (wallClock : PyDatetime) :
    Except RunError RunOutput :=
  match resolveNow nowArg wallClock with
  | .error e => .error e
  | .ok now =>
    match buildRanking now (iter_ads p) with
    | .error e => .error (.uncaught e)
    | .ok ranking =>
      let sorted := sortRanking ranking
      let lines := renderLines sorted
      .ok ⟨sorted, lines, joinLines lines⟩

/-- The three per-record skip conditions of the main loop: unresolvable start
time, unresolvable end time (which covers the inactive-without-end case), or
a computed negative duration — in each case with the resolver returning
rather than raising, since an uncaught exception aborts the run instead of
skipping the record. -/
def skipReason (now : PyDatetime) (ad : Ad) : Prop :=
  parse_datetime ad.start_date ad.start_date_string = .ok none ∨
  (∃ st, parse_datetime ad.start_date ad.start_date_string = .ok (some st) ∧
    determine_end_time ad now = .ok none) ∨
  (∃ st en d, parse_datetime ad.start_date ad.start_date_string = .ok (some st) ∧
    determine_end_time ad now = .ok (some en) ∧ pySub en st = Except.ok d ∧
    d < 0)

/-- The comparison the ranking sort uses. -/
def rankLE (a b : RankedEntry) : Bool :=
  decide (b.duration_seconds ≤ a.duration_seconds)

theorem sortRanking_eq_mergeSort (l : List RankedEntry) :
    sortRanking l = l.mergeSort rankLE := rfl

theorem processAd_skip (now : PyDatetime) (ad : Ad) (h : skipReason now ad) :
    processAd now ad = .ok none := by
  unfold processAd
  rcases h with h | ⟨st, h1, h2⟩ | ⟨st, en, d, h1, h2, h3, h4⟩
  · simp only [h]
  · simp only [h1, h2]
  · simp only [h1, h2, h3, if_pos h4]

theorem processAd_emit_nonneg (now : PyDatetime) (ad : Ad) (e : RankedEntry)
    (h : processAd now ad = .ok (some e)) : 0 ≤ e.duration_seconds := by
  unfold processAd at h
  cases hs : parse_datetime ad.start_date ad.start_date_string with
  | error err => simp [hs] at h
  | ok o1 =>
    cases o1 with
    | none => simp [hs] at h
    | some st =>
    simp only [hs] at h
    cases he : determine_end_time ad now with
    | error err => simp [he] at h
    | ok o2 =>
      cases o2 with
      | none => simp [he] at h
      | some en =>
      simp only [he] at h
      cases hd : pySub en st with
      | error err => simp [hd] at h
      | ok d =>
        simp only [hd] at h
        by_cases hneg : d < 0
        · simp [hneg] at h
        · simp only [if_neg hneg, Except.ok.injEq, Option.some.injEq] at h
          rw [← h]
          exact Int.not_lt.mp hneg

theorem buildRanking_cons (now : PyDatetime) (ad : Ad) (rest : List Ad) :
    buildRanking now (ad :: rest) =
      match processAd now ad with
      | .error e => .error e
      | .ok none => buildRanking now rest
      | .ok (some e) =>
        match buildRanking now rest with
        | .error err => .error err
        | .ok rs => .ok (e :: rs) := rfl

theorem buildRanking_nonneg (now : PyDatetime) :
    ∀ (ads : List Ad) (r : List RankedEntry), buildRanking now ads = .ok r →
      ∀ e ∈ r, 0 ≤ e.duration_seconds
  | [], r, h => by
    unfold buildRanking at h
    cases h
    simp
  | ad :: rest, r, h => by
    rw [buildRanking_cons] at h
    cases hp : processAd now ad with
    | error err => simp [hp] at h
    | ok o =>
      simp only [hp] at h
      cases o with
      | none => exact buildRanking_nonneg now rest r h
      | some e0 =>
        cases hb : buildRanking now rest with
        | error err => simp [hb] at h
        | ok rs =>
          simp only [hb, Except.ok.injEq] at h
          subst h
          intro e he
          rcases List.mem_cons.mp he with rfl | he
          · exact processAd_emit_nonneg now ad e hp
          · exact buildRanking_nonneg now rest rs hb e he

theorem buildRanking_skip_middle (now : PyDatetime) (ad : Ad)
    (h : processAd now ad = .ok none) :
    ∀ pre post : List Ad,
      buildRanking now (pre ++ ad :: post) = buildRanking now (pre ++ post)
  | [], post => by
    simp only [List.nil_append, buildRanking_cons, h]
  | p :: pre, post => by
    simp only [List.cons_append, buildRanking_cons]
    rw [buildRanking_skip_middle now ad h pre post]

theorem buildRanking_all_skip (now : PyDatetime) :
    ∀ ads : List Ad, (∀ ad ∈ ads, skipReason now ad) →
      buildRanking now ads = .ok []
  | [], _ => rfl
  | ad :: rest, h => by
    simp only [buildRanking_cons, processAd_skip now ad (h ad (by simp))]
    exact buildRanking_all_skip now rest (fun a ha => h a (by simp [ha]))

theorem rankLE_trans (a b c : RankedEntry) (h1 : rankLE a b) (h2 : rankLE b c) :
    rankLE a c := by
  simp only [rankLE, decide_eq_true_eq] at *
  omega

theorem rankLE_total (a b : RankedEntry) : rankLE a b || rankLE b a := by
  simp only [rankLE]
  by_cases h : b.duration_seconds ≤ a.duration_seconds
  · simp [h]
  · simp [h]
    omega

theorem takeDigits2_suffix (cs r : List Char) (n : Nat)
    (h : takeDigits2 cs = some (n, r)) : List.IsSuffix r cs := by
  match cs with
  | [] => simp [takeDigits2] at h
  | [c] => simp [takeDigits2] at h
  | c1 :: c2 :: rest =>
    unfold takeDigits2 at h
    cases h1 : digitVal c1 <;> simp [h1] at h
    cases h2 : digitVal c2 <;> simp [h2] at h
    rw [← h.2]
    exact (List.suffix_cons c2 rest).trans (List.suffix_cons c1 (c2 :: rest))

theorem takeDigits4_suffix (cs r : List Char) (n : Nat)
    (h : takeDigits4 cs = some (n, r)) : List.IsSuffix r cs := by
  match cs with
  | [] => simp [takeDigits4] at h
  | [c] => simp [takeDigits4] at h
  | [c, c'] => simp [takeDigits4] at h
  | [c, c', c''] => simp [takeDigits4] at h
  | c1 :: c2 :: c3 :: c4 :: rest =>
    unfold takeDigits4 at h
    cases h1 : digitVal c1 <;> simp [h1] at h
    cases h2 : digitVal c2 <;> simp [h2] at h
    cases h3 : digitVal c3 <;> simp [h3] at h
    cases h4 : digitVal c4 <;> simp [h4] at h
    rw [← h.2]
    exact (((List.suffix_cons c4 rest).trans (List.suffix_cons c3 _)).trans
      (List.suffix_cons c2 _)).trans (List.suffix_cons c1 _)

theorem expectChar_suffix (c : Char) (cs r : List Char)
    (h : expectChar c cs = some r) : List.IsSuffix r cs := by
  match cs with
  | [] => simp [expectChar] at h
  | x :: rest =>
    unfold expectChar at h
    by_cases hx : x = c
    · simp only [if_pos hx, Option.some.injEq] at h
      rw [← h]
      exact List.suffix_cons x rest
    · simp [if_neg hx] at h

theorem fromisoTime_tzOffset (dayPart : Int) (r5 : List Char)
    (dt : PyDatetime) (h : fromisoTime dayPart r5 = some dt) :
    dt.tzOffset = none ∨
    ∃ cs off, dt.tzOffset = some off ∧ readOffset cs = some off ∧
      List.IsSuffix cs r5 := by
  unfold fromisoTime at h
  match r5 with
  | [] =>
    simp only [Option.some.injEq] at h
    rw [← h]
    exact Or.inl rfl
  | sep :: r6 =>
    cases h1 : takeDigits2 r6 with
    | none => simp [h1] at h
    | some p1 =>
      obtain ⟨hh, r7⟩ := p1
      simp only [h1] at h
      cases h2 : expectChar ':' r7 with
      | none => simp [h2] at h
      | some r8 =>
        simp only [h2] at h
        cases h3 : takeDigits2 r8 with
        | none => simp [h3] at h
        | some p2 =>
          obtain ⟨mi, r9⟩ := p2
          simp only [h3] at h
          cases h4 : expectChar ':' r9 with
          | none => simp [h4] at h
          | some r10 =>
            simp only [h4] at h
            cases h5 : takeDigits2 r10 with
            | none => simp [h5] at h
            | some p3 =>
              obtain ⟨ss, r11⟩ := p3
              simp only [h5] at h
              by_cases hg : hh ≤ 23 ∧ mi ≤ 59 ∧ ss ≤ 59
              · simp only [if_pos hg] at h
                have hsfx : List.IsSuffix r11 (sep :: r6) :=
                  ((((takeDigits2_suffix r10 r11 ss h5).trans
                    (expectChar_suffix ':' r9 r10 h4)).trans
                    (takeDigits2_suffix r8 r9 mi h3)).trans
                    (expectChar_suffix ':' r7 r8 h2)).trans
                    ((takeDigits2_suffix r6 r7 hh h1).trans
                      (List.suffix_cons sep r6))
                match r11, hsfx with
                | [], _ =>
                  simp only [Option.some.injEq] at h
                  rw [← h]
                  exact Or.inl rfl
                | c :: r12, hsfx =>
                  cases h6 : readOffset (c :: r12) with
                  | none => simp [h6] at h
                  | some off =>
                    simp only [h6, Option.some.injEq] at h
                    refine Or.inr ⟨c :: r12, off, ?_, h6, hsfx⟩
                    rw [← h]
              · simp [if_neg hg] at h

theorem fromisoformat_tzOffset (s : String) (dt : PyDatetime)
    (h : fromisoformat s = some dt) :
    dt.tzOffset = none ∨
    ∃ cs off, dt.tzOffset = some off ∧ readOffset cs = some off ∧
      List.IsSuffix cs s.data := by
  unfold fromisoformat at h
  cases h1 : takeDigits4 s.data with
  | none => simp [h1] at h
  | some p1 =>
    obtain ⟨y, r1⟩ := p1
    simp only [h1] at h
    cases h2 : expectChar '-' r1 with
    | none => simp [h2] at h
    | some r2 =>
      simp only [h2] at h
      cases h3 : takeDigits2 r2 with
      | none => simp [h3] at h
      | some p2 =>
        obtain ⟨m, r3⟩ := p2
        simp only [h3] at h
        cases h4 : expectChar '-' r3 with
        | none => simp [h4] at h
        | some r4 =>
          simp only [h4] at h
          cases h5 : takeDigits2 r4 with
          | none => simp [h5] at h
          | some p3 =>
            obtain ⟨d, r5⟩ := p3
            simp only [h5] at h
            by_cases hg : 1 ≤ y ∧ 1 ≤ m ∧ m ≤ 12 ∧ 1 ≤ d ∧ d ≤ daysInMonth y m
            · simp only [if_pos hg] at h
              have hsfx : List.IsSuffix r5 s.data :=
                (((takeDigits2_suffix r4 r5 d h5).trans
                  (expectChar_suffix '-' r3 r4 h4)).trans
                  ((takeDigits2_suffix r2 r3 m h3).trans
                    (expectChar_suffix '-' r1 r2 h2))).trans
                  (takeDigits4_suffix s.data r1 y h1)
              rcases fromisoTime_tzOffset _ r5 dt h with hn | ⟨cs, off, ho, hr, hs⟩
              · exact Or.inl hn
              · exact Or.inr ⟨cs, off, ho, hr, hs.trans hsfx⟩
            · simp [if_neg hg] at h

theorem parse_datetime_iso_tzOffset (s : String) (dt : PyDatetime)
    (h : parse_datetime none (some s) = .ok (some dt)) :
    dt.tzOffset = none ∨
    ∃ cs off, dt.tzOffset = some off ∧ readOffset cs = some off ∧
      List.IsSuffix cs (zReplace s).data := by
  unfold parse_datetime at h
  by_cases hs : s = ""
  · simp [hs] at h
  · simp only [if_neg hs, Except.ok.injEq] at h
    exact fromisoformat_tzOffset (zReplace s) dt h

theorem parse_datetime_inRange_total (e : Int) (iso : Option String)
    (hlo : timeTMin ≤ e) (hhi : e ≤ timeTMax) :
    ∃ r, parse_datetime (some e) iso = .ok r := by
  have hov : ¬(e < timeTMin ∨ timeTMax < e) := by omega
  unfold parse_datetime
  simp only [if_neg hov]
  by_cases hok : fromtimestampOk e
  · simp only [if_pos hok]
    exact ⟨_, rfl⟩
  · simp only [if_neg hok]
    exact ⟨_, rfl⟩

/-- Claim C1, as stated, is false on the code: a per-record derivation
failure can terminate the whole process.  The first ad resolves its start
from an epoch (offset-aware UTC) and its end from an ISO string without an
offset (offset-naive); the duration subtraction then raises an uncaught
`TypeError`, so the run ends in an error and the second, perfectly valid ad
is never ranked. -/
theorem C1_counterexample :
    runMain ⟨.adList [⟨.vNone, .vNone, some 1000, none, none,
        some "2025-01-01T00:00:00", .vNone⟩,
      ⟨.vStr "A2", .vNone, some 1000, none, some 2000, none, .vNone⟩], .absent⟩
      none ⟨0, some 0⟩ = .error (.uncaught .typeError) := rfl

/-- Claim C1 (amended): any of the three per-record skip conditions —
unresolvable start time, unresolvable end time, or negative computed
duration — makes the main loop skip exactly that record, and removing a
skipped record from anywhere in the list leaves the loop's outcome on the
remaining records unchanged.  The resolver returns (unresolved rather than
raising) for every epoch within the 64-bit `time_t` range and whenever the
epoch field is absent; but — unlike the original claim — two per-record
failures do terminate the process: an epoch outside the `time_t` range makes
the resolver itself raise an uncaught `OverflowError`, and subtracting an
offset-naive resolved timestamp from an offset-aware one raises an uncaught
`TypeError`, as the counterexample shows. -/
theorem C1_amended_skip_continuity (now : PyDatetime) (ad : Ad)
    (pre post : List Ad) (e : Int) (iso : Option String) :
    (skipReason now ad → processAd now ad = .ok none) ∧
    (processAd now ad = .ok none →
      buildRanking now (pre ++ ad :: post) = buildRanking now (pre ++ post)) ∧
    (timeTMin ≤ e → e ≤ timeTMax →
      ∃ r, parse_datetime (some e) iso = .ok r) ∧
    (∃ r, parse_datetime none iso = .ok r) ∧
    (e < timeTMin ∨ timeTMax < e →
      parse_datetime (some e) iso = .error .overflowError) := by
  refine ⟨processAd_skip now ad,
    fun h => buildRanking_skip_middle now ad h pre post,
    parse_datetime_inRange_total e iso, ⟨_, rfl⟩, ?_⟩
  intro hout
  unfold parse_datetime
  simp only [if_pos hout]

/-- Witness for C1 (amended): a record with no start fields at all is
skipped, and dropping it leaves the ranking of the remaining ads unchanged. -/
theorem C1_amended_witness :
    buildRanking ⟨0, some 0⟩
        ([⟨.vStr "A2", .vNone, some 1000, none, some 2000, none, .vNone⟩] ++
          (⟨.vNone, .vNone, none, none, none, none, .vNone⟩ : Ad) :: []) =
      buildRanking ⟨0, some 0⟩
        ([⟨.vStr "A2", .vNone, some 1000, none, some 2000, none, .vNone⟩] ++ []) :=
  (C1_amended_skip_continuity ⟨0, some 0⟩
      ⟨.vNone, .vNone, none, none, none, none, .vNone⟩
      [⟨.vStr "A2", .vNone, some 1000, none, some 2000, none, .vNone⟩] []
      0 none).2.1
    ((C1_amended_skip_continuity ⟨0, some 0⟩
        ⟨.vNone, .vNone, none, none, none, none, .vNone⟩
        [⟨.vStr "A2", .vNone, some 1000, none, some 2000, none, .vNone⟩] []
        0 none).1
      (Or.inl rfl))

/-- Claim C3, as stated, is false on the code: for the ad with
`start_date = 2 ** 63` and no other fields, the end time is unresolved and
`is_active` is absent (falsy), yet the ad is not skipped — parsing its start
epoch raises an uncaught `OverflowError` (`2 ** 63` does not fit a 64-bit
`time_t`, so `except (ValueError, OSError)` does not catch it) and the whole
run dies instead of excluding the record. -/
theorem C3_counterexample :
    determine_end_time
        ⟨.vNone, .vNone, some 9223372036854775808, none, none, none, .vNone⟩
        ⟨0, some 0⟩ = .ok none ∧
    truthy (Ad.is_active ⟨.vNone, .vNone, some 9223372036854775808, none,
      none, none, .vNone⟩) = false ∧
    processAd ⟨0, some 0⟩
        ⟨.vNone, .vNone, some 9223372036854775808, none, none, none,
          .vNone⟩ = .error .overflowError ∧
    runMain ⟨.adList [⟨.vNone, .vNone, some 9223372036854775808, none, none,
        none, .vNone⟩], .absent⟩ none ⟨0, some 0⟩ =
      .error (.uncaught .overflowError) :=
  ⟨rfl, rfl, rfl, rfl⟩

/-- Claim C3 (amended): when the end fields of an ad do not resolve, a
truthy `is_active` makes the derived end time exactly the caller-supplied
`now`, while an absent or falsy `is_active` leaves the end unresolved and —
provided resolving the ad's start returns rather than raising (which holds
for every start epoch within the 64-bit `time_t` range; outside it the run
aborts with an uncaught `OverflowError`, see the counterexample) — the main
loop skips the ad and excludes it from the ranking.  The `now` that `main`
threads through is the parsed `--now` override when a non-empty one is
given, and the wall clock otherwise. -/
theorem C3_amended_active_end_fallback (ad : Ad) (now wc : PyDatetime)
    (s : String) (t : PyDatetime)
    (hend : parse_datetime ad.end_date ad.end_date_string = .ok none) :
    (truthy ad.is_active = true →
      determine_end_time ad now = .ok (some now)) ∧
    (truthy ad.is_active = false → determine_end_time ad now = .ok none ∧
      ∀ r, parse_datetime ad.start_date ad.start_date_string = .ok r →
        processAd now ad = .ok none) ∧
    (s ≠ "" → parse_datetime none (some s) = .ok (some t) →
      resolveNow (some s) wc = .ok t) ∧
    resolveNow none wc = .ok wc := by
  refine ⟨?_, ?_, ?_, rfl⟩
  · intro ha
    unfold determine_end_time
    simp only [hend, ha, if_true]
  · intro ha
    have hd : determine_end_time ad now = .ok none := by
      unfold determine_end_time
      simp [hend, ha]
    refine ⟨hd, ?_⟩
    intro r hr
    unfold processAd
    cases r with
    | none => simp only [hr]
    | some st => simp only [hr, hd]
  · intro hs hp
    unfold resolveNow
    simp only [if_neg hs, hp]

/-- Witness for C3 (amended): an ad with no end fields and
`is_active = true` derives its end time from the supplied `now`. -/
theorem C3_amended_witness :
    determine_end_time
        ⟨.vStr "A1", .vNone, some 1000, none, none, none, .vBool true⟩
        ⟨7777, some 0⟩ = .ok (some ⟨7777, some 0⟩) :=
  (C3_amended_active_end_fallback
      ⟨.vStr "A1", .vNone, some 1000, none, none, none, .vBool true⟩
      ⟨7777, some 0⟩ ⟨0, some 0⟩ "x" ⟨0, some 0⟩ rfl).1 rfl

/-- Claim C6: every entry of the sorted ranking that the output table is
rendered from has a non-negative duration; an ad whose derived duration is
negative never appears as a row. -/
theorem C6_no_negative_durations (now : PyDatetime) (ads : List Ad)
    (r : List RankedEntry) (h : buildRanking now ads = .ok r) :
    ∀ e ∈ sortRanking r, 0 ≤ e.duration_seconds := by
  intro e he
  simp only [sortRanking_eq_mergeSort] at he
  exact buildRanking_nonneg now ads r h e (List.mem_mergeSort.mp he)

/-- Witness for C6: the single entry a concrete run ranks has a
non-negative duration. -/
theorem C6_witness :
    (0 : Int) ≤ (⟨.vStr "A1", .vStr "P1", ⟨1000, some 0⟩, ⟨260200, some 0⟩,
        259200⟩ : RankedEntry).duration_seconds :=
  C6_no_negative_durations ⟨0, some 0⟩
    [⟨.vStr "A1", .vStr "P1", some 1000, none, some 260200, none, .vNone⟩]
    [⟨.vStr "A1", .vStr "P1", ⟨1000, some 0⟩, ⟨260200, some 0⟩, 259200⟩] rfl
    ⟨.vStr "A1", .vStr "P1", ⟨1000, some 0⟩, ⟨260200, some 0⟩, 259200⟩
    (by simp [sortRanking])

/-- Claim C8: a non-empty `--now` value that fails to parse terminates the
run with the `SystemExit` diagnostic (a non-zero exit status), and no output
is produced — in particular the output file is not written. -/
theorem C8_invalid_now_fatal (s : String) (p : Payload) (wc : PyDatetime)
    (hne : s ≠ "") (hparse : parse_datetime none (some s) = .ok none) :
    runMain p (some s) wc =
      .error (.systemExit ("Invalid --now value: " ++ s)) := by
  unfold runMain resolveNow
  simp only [if_neg hne, hparse]

/-- Witness for C8: `--now "not-a-date"` aborts the run with the diagnostic. -/
theorem C8_witness :
    runMain ⟨.absent, .absent⟩ (some "not-a-date") ⟨0, some 0⟩ =
      .error (.systemExit ("Invalid --now value: " ++ "not-a-date")) :=
  C8_invalid_now_fatal "not-a-date" ⟨.absent, .absent⟩ ⟨0, some 0⟩
    (by decide) rfl

/-- Claim C9: the skip logic never looks at `ad_archive_id` or `page_name` —
an ad whose times resolve to a non-negative duration is ranked whatever those
fields hold — and a falsy identifier value (absent key, `null`, the empty
string, `0`, or `False`) renders as the empty string in its column. -/
theorem C9_falsy_identifier_ranked (now : PyDatetime) (ad : Ad)
    (st en : PyDatetime) (d : Int)
    (hst : parse_datetime ad.start_date ad.start_date_string = .ok (some st))
    (hen : determine_end_time ad now = .ok (some en))
    (hd : pySub en st = .ok d) (hnn : 0 ≤ d) :
    processAd now ad =
      .ok (some ⟨ad.ad_archive_id, ad.page_name, st, en, d⟩) ∧
    (truthy ad.ad_archive_id = false → pyStrOrEmpty ad.ad_archive_id = "") ∧
    (truthy ad.page_name = false → pyStrOrEmpty ad.page_name = "") := by
  refine ⟨?_, ?_, ?_⟩
  · unfold processAd
    simp only [hst, hen, hd, if_neg (by omega : ¬d < 0)]
  · intro h
    unfold pyStrOrEmpty
    simp only [h]
    rfl
  · intro h
    unfold pyStrOrEmpty
    simp only [h]
    rfl

/-- Witness for C9: an ad with identifier `0` and empty page name is still
ranked, and both columns render as the empty string. -/
theorem C9_witness :
    processAd ⟨0, some 0⟩
        ⟨.vInt 0, .vStr "", some 1000, none, some 2000, none, .vNone⟩ =
      .ok (some ⟨.vInt 0, .vStr "", ⟨1000, some 0⟩, ⟨2000, some 0⟩, 1000⟩) ∧
    pyStrOrEmpty (.vInt 0) = "" ∧ pyStrOrEmpty (.vStr "") = "" := by
  have h := C9_falsy_identifier_ranked ⟨0, some 0⟩
    ⟨.vInt 0, .vStr "", some 1000, none, some 2000, none, .vNone⟩
    ⟨1000, some 0⟩ ⟨2000, some 0⟩ 1000 rfl rfl rfl (by decide)
  exact ⟨h.1, h.2.1 (by decide), h.2.2 (by decide)⟩

/-- Claim C10: an empty `--now` argument is falsy, so the run behaves exactly
as if the option were absent — `now` silently falls back to the wall clock
and no fatal usage error is raised. -/
theorem C10_empty_now_falls_back (p : Payload) (wc : PyDatetime) :
    resolveNow (some "") wc = .ok wc ∧
    runMain p (some "") wc = runMain p none wc := by
  constructor
  · rfl
  · unfold runMain
    rfl

/-- Claim C7: when every extracted ad is skipped (unresolvable start,
unresolvable end, or negative duration) — in particular when the list is
empty — the run succeeds and emits exactly the single no-ads message line to
standard output, and that line plus a trailing newline as the file content;
no header or rows. -/
theorem C7_no_qualifying_ads (p : Payload) (nowArg : Option String)
    (wc now : PyDatetime) (hres : resolveNow nowArg wc = .ok now)
    (hskip : ∀ ad ∈ iter_ads p, skipReason now ad) :
    runMain p nowArg wc = .ok ⟨[], [noAdsMessage], noAdsMessage ++ "\x0a"⟩ := by
  unfold runMain
  have hs : sortRanking ([] : List RankedEntry) = [] := by
    simp [sortRanking]
  simp only [hres, buildRanking_all_skip now (iter_ads p) hskip, hs]
  rfl

/-- Witness for C7: a payload whose only ad has no resolvable start time
produces exactly the no-ads message. -/
theorem C7_witness :
    runMain ⟨.adList [⟨.vStr "A1", .vNone, none, some "not-a-date", none,
        none, .vBool true⟩], .absent⟩ none ⟨0, some 0⟩ =
      .ok ⟨[], [noAdsMessage], noAdsMessage ++ "\x0a"⟩ :=
  C7_no_qualifying_ads _ none ⟨0, some 0⟩ ⟨0, some 0⟩ rfl
    (by
      intro ad had
      rcases List.mem_singleton.mp had with rfl
      exact Or.inl rfl)

/-- Claim C4: an ad with in-range integer epoch start and end fields and no
active flag is ranked with duration exactly `end_date - start_date` seconds
(whatever its string fields hold), and the concrete one-ad input with
`start_date = 1000` and `end_date = 1000 + 86400 * 3` produces exactly one
output row, whose active-days column shows `3.00` —
`format_timedelta` of that duration. -/
theorem C4_epoch_duration_two_decimals :
    (∀ (a b : Int) (idv pg : PyVal) (ss es : Option String) (now : PyDatetime),
      fromtimestampOk a = true → fromtimestampOk b = true → a ≤ b →
      processAd now ⟨idv, pg, some a, ss, some b, es, .vNone⟩ =
        .ok (some ⟨idv, pg, ⟨a, some 0⟩, ⟨b, some 0⟩, b - a⟩)) ∧
    (runMain ⟨.adList [⟨.vStr "A1", .vStr "P1", some 1000, none,
          some 260200, none, .vNone⟩], .absent⟩ none ⟨0, some 0⟩).map
        RunOutput.stdoutLines =
      .ok [headerLine, separatorLine,
        "   1  A1                    P1                              1970-01-01 00:16      1970-01-04 00:16              3.00"] ∧
    format_timedelta (260200 - 1000) = "3.00" := by
  refine ⟨?_, ?_, rfl⟩
  · intro a b idv pg ss es now ha hb hab
    have ha' : -62135596800 ≤ a ∧ a ≤ 253402300799 := by
      simpa [fromtimestampOk] using ha
    have hb' : -62135596800 ≤ b ∧ b ≤ 253402300799 := by
      simpa [fromtimestampOk] using hb
    have hova : ¬(a < timeTMin ∨ timeTMax < a) := by
      simp only [timeTMin, timeTMax]
      omega
    have hovb : ¬(b < timeTMin ∨ timeTMax < b) := by
      simp only [timeTMin, timeTMax]
      omega
    have h1 : parse_datetime (some a) ss = .ok (some ⟨a, some 0⟩) := by
      unfold parse_datetime
      simp only [if_neg hova, ha, if_true]
    have h2 : determine_end_time ⟨idv, pg, some a, ss, some b, es, .vNone⟩
        now = .ok (some ⟨b, some 0⟩) := by
      unfold determine_end_time parse_datetime
      simp only [if_neg hovb, hb, if_true]
    have h3 : pySub ⟨b, some 0⟩ ⟨a, some 0⟩ = .ok (b - a) := by
      unfold pySub
      simp only
      congr 1
      ring
    unfold processAd
    simp only [h1, h2, h3, if_neg (by omega : ¬b - a < 0)]
  · have hb : buildRanking ⟨0, some 0⟩
        (iter_ads ⟨.adList [⟨.vStr "A1", .vStr "P1", some 1000, none,
          some 260200, none, .vNone⟩], .absent⟩) =
        .ok [⟨.vStr "A1", .vStr "P1", ⟨1000, some 0⟩, ⟨260200, some 0⟩,
          259200⟩] := rfl
    unfold runMain
    simp only [show resolveNow none (⟨0, some 0⟩ : PyDatetime) =
      .ok ⟨0, some 0⟩ from rfl, hb]
    simp only [sortRanking, List.mergeSort_singleton]
    rfl

/-- Witness for C4: the epoch-pair rule applied at `1000` and `260200`. -/
theorem C4_witness :
    processAd ⟨0, some 0⟩
        ⟨.vNone, .vNone, some 1000, none, some 260200, none, .vNone⟩ =
      .ok (some ⟨.vNone, .vNone, ⟨1000, some 0⟩, ⟨260200, some 0⟩,
        260200 - 1000⟩) :=
  C4_epoch_duration_two_decimals.1 1000 260200 .vNone .vNone none none
    ⟨0, some 0⟩ (by decide) (by decide) (by decide)

/-- Claim C5: the sorted ranking is non-increasing in duration, and entries
with equal durations keep their original relative order (stability): for
every duration value, filtering the sorted list to that duration gives
exactly the same sequence as filtering the originally-built list. -/
theorem C5_sort_descending_stable (l : List RankedEntry) :
    List.Pairwise (fun a b => b.duration_seconds ≤ a.duration_seconds)
      (sortRanking l) ∧
    ∀ d : Int,
      (sortRanking l).filter (fun e => e.duration_seconds == d) =
        l.filter (fun e => e.duration_seconds == d) := by
  constructor
  · have h := List.sorted_mergeSort rankLE_trans rankLE_total l
    rw [sortRanking_eq_mergeSort]
    exact h.imp (fun hab => by simpa [rankLE] using hab)
  · intro d
    have hpw : (l.filter (fun e => e.duration_seconds == d)).Pairwise
        (fun a b => rankLE a b = true) := by
      apply List.pairwise_of_forall_mem_list
      intro a ha b hb
      have ha' := (List.mem_filter.mp ha).2
      have hb' := (List.mem_filter.mp hb).2
      simp only [beq_iff_eq] at ha' hb'
      simp [rankLE, ha', hb']
    have hsub : List.Sublist (l.filter (fun e => e.duration_seconds == d))
        (sortRanking l) := by
      rw [sortRanking_eq_mergeSort]
      exact List.sublist_mergeSort rankLE_trans rankLE_total hpw
        (List.filter_sublist l)
    have hperm : List.Perm
        ((sortRanking l).filter (fun e => e.duration_seconds == d))
        (l.filter (fun e => e.duration_seconds == d)) := by
      rw [sortRanking_eq_mergeSort]
      exact (List.mergeSort_perm l rankLE).filter _
    have h2 := hsub.filter (fun e => e.duration_seconds == d)
    rw [List.filter_eq_self.mpr
      (fun a ha => (List.mem_filter.mp ha).2)] at h2
    exact (h2.eq_of_length hperm.length_eq.symm).symm

/-- Claim C2, as stated, is false on the code: the resolver does not
normalize string-resolved timestamps to UTC.  Resolving the ISO string
"2025-01-01T05:00:00+03:00" yields a datetime that keeps the +03:00 offset
(10800 seconds, not offset zero), and the output columns render its
wall-clock time "2025-01-01 05:00", whereas the UTC rendering of that same
instant (10800 seconds earlier in wall time) is "2025-01-01 02:00". -/
theorem C2_counterexample :
    parse_datetime none (some "2025-01-01T05:00:00+03:00") =
      .ok (some ⟨1735707600, some 10800⟩) ∧
    (some 10800 : Option Int) ≠ some 0 ∧
    strftimeYMDHM ⟨1735707600, some 10800⟩ = "2025-01-01 05:00" ∧
    strftimeYMDHM ⟨1735707600 - 10800, some 0⟩ = "2025-01-01 02:00" :=
  ⟨rfl, by decide, rfl, rfl⟩

/-- Claim C2 (amended): timestamps resolved from an in-range epoch integer
are UTC-normalized (offset zero), but a timestamp resolved from an ISO
string is returned exactly as parsed — its offset is either absent
(offset-naive) or precisely the `±HH:MM` offset suffix spelled at the end of
the (`Z`-rewritten) string, never converted — and the start/end columns
render the stored wall-clock fields unchanged, ignoring the stored offset;
so string-resolved rows render in the string's own zone, which is UTC only
when that offset is zero (e.g. for a trailing `Z`). -/
theorem C2_amended_resolver_offsets :
    (∀ (e : Int) (iso : Option String), fromtimestampOk e = true →
      parse_datetime (some e) iso = .ok (some ⟨e, some 0⟩)) ∧
    (∀ (s : String) (dt : PyDatetime),
      parse_datetime none (some s) = .ok (some dt) →
      dt.tzOffset = none ∨
      ∃ cs off, dt.tzOffset = some off ∧ readOffset cs = some off ∧
        List.IsSuffix cs (zReplace s).data) ∧
    (∀ (w : Int) (o : Option Int),
      strftimeYMDHM ⟨w, o⟩ = strftimeYMDHM ⟨w, none⟩) ∧
    parse_datetime none (some "2025-06-15T08:30:00+02:00") =
      .ok (some ⟨1749976200, some 7200⟩) ∧
    parse_datetime none (some "2025-06-15T08:30:00") =
      .ok (some ⟨1749976200, none⟩) ∧
    parse_datetime none (some "2025-10-02T11:27:48Z") =
      .ok (some ⟨1759404468, some 0⟩) := by
  refine ⟨?_, parse_datetime_iso_tzOffset, fun w o => rfl, rfl, rfl, rfl⟩
  intro e iso he
  have he' : -62135596800 ≤ e ∧ e ≤ 253402300799 := by
    simpa [fromtimestampOk] using he
  have hov : ¬(e < timeTMin ∨ timeTMax < e) := by
    simp only [timeTMin, timeTMax]
    omega
  unfold parse_datetime
  simp only [if_neg hov, he, if_true]

/-- Witness for C2 (amended): an in-range epoch resolves to a UTC-offset
datetime. -/
theorem C2_amended_witness :
    parse_datetime (some 1000) none = .ok (some ⟨1000, some 0⟩) :=
  C2_amended_resolver_offsets.1 1000 none (by decide)

end RankAds
